import Mathlib

/-!
Verification of the XNBExtract decoder (src/xnb_extract.py) against its
natural-language specification.

The byte stream is modelled as a `List Nat` of byte values (each stream byte
is 0..255; Python file reads return the available prefix).  A reader is a
function `List Nat → Option (value × List Nat)` returning the decoded value
and the remaining stream; `none` models an uncaught Python exception at that
read (struct.error on a short fixed-width read, IndexError on reading a byte
at end of stream, and so on).  IEEE-754 float32 values are represented by
their little-endian 4-byte bit pattern as a `Nat`; no claim inspects float
arithmetic.  Python text strings read from the stream are represented by
their UTF-8 byte lists.
-/

set_option maxRecDepth 10000

namespace XNB

/-- Python file read of up to n bytes: returns the available prefix and the
rest; a short read is not an error. -/
def fpRead (n : Nat) (s : List Nat) : List Nat × List Nat :=
  (s.take n, s.drop n)

/-- ObjectReader.read_byte: struct unpack of format B on 1 byte; a read at
end of stream raises struct.error, modelled as none. -/
def read_byte (s : List Nat) : Option (Nat × List Nat) :=
  match s with
  | b :: r => some (b, r)
  | _ => none

/-- ObjectReader.read_boolean: read_byte() != 0. -/
def read_boolean (s : List Nat) : Option (Bool × List Nat) :=
  match read_byte s with
  | some (b, r) => some (b != 0, r)
  | none => none

/-- ObjectReader.read_uint16: struct unpack of format H (little-endian). -/
def read_uint16 (s : List Nat) : Option (Nat × List Nat) :=
  match s with
  | b0 :: b1 :: r => some (b0 + 256 * b1, r)
  | _ => none

/-- ObjectReader.read_int16: struct unpack of format h, two's complement. -/
def read_int16 (s : List Nat) : Option (Int × List Nat) :=
  match s with
  | b0 :: b1 :: r =>
      let u := b0 + 256 * b1
      some (if u < 2 ^ 15 then (u : Int) else (u : Int) - 2 ^ 16, r)
  | _ => none

/-- ObjectReader.read_uint32: struct unpack of format I (little-endian). -/
def read_uint32 (s : List Nat) : Option (Nat × List Nat) :=
  match s with
  | b0 :: b1 :: b2 :: b3 :: r =>
      some (b0 + 256 * b1 + 65536 * b2 + 16777216 * b3, r)
  | _ => none

/-- ObjectReader.read_int32: struct unpack of format i, two's complement. -/
def read_int32 (s : List Nat) : Option (Int × List Nat) :=
  match s with
  | b0 :: b1 :: b2 :: b3 :: r =>
      let u := b0 + 256 * b1 + 65536 * b2 + 16777216 * b3
      some (if u < 2 ^ 31 then (u : Int) else (u : Int) - 2 ^ 32, r)
  | _ => none

/-- ObjectReader.read_int64: struct unpack of format q, two's complement. -/
def read_int64 (s : List Nat) : Option (Int × List Nat) :=
  match s with
  | b0 :: b1 :: b2 :: b3 :: b4 :: b5 :: b6 :: b7 :: r =>
      let u := b0 + 256 * b1 + 65536 * b2 + 16777216 * b3 +
        4294967296 * b4 + 1099511627776 * b5 + 281474976710656 * b6 +
        72057594037927936 * b7
      some (if u < 2 ^ 63 then (u : Int) else (u : Int) - 2 ^ 64, r)
  | _ => none

/-- ObjectReader.read_single: struct unpack of format f; the float32 value is
represented by its 4-byte little-endian bit pattern. -/
def read_single (s : List Nat) : Option (Nat × List Nat) :=
  match s with
  | b0 :: b1 :: b2 :: b3 :: r =>
      some (b0 + 256 * b1 + 65536 * b2 + 16777216 * b3, r)
  | _ => none

/-- Loop body of read_leb128.  The accumulator takes each byte's low 7 bits
shifted left by 7 * i, but the source never increments i after initializing
it to 0, so every payload group lands at shift 0.  Reading a byte at end of
stream raises IndexError (fp.read(1)[0] on an empty bytes object), modelled
as none. -/
def read_leb128_aux : List Nat → Nat → Nat → Option (Nat × List Nat)
  | [], _, _ => none
  | b :: rest, result, i =>
      let result := result ||| ((b &&& 0x7f) <<< (7 * i))
      if b &&& 0x80 = 0 then some (result, rest)
      else read_leb128_aux rest result i

/-- read_leb128 of the source: result starts at 0, i starts at 0 (and is
never changed by the loop). -/
def read_leb128 (s : List Nat) : Option (Nat × List Nat) :=
  read_leb128_aux s 0 0

/-- ObjectReader.read_string: fp.read(read_leb128(fp)) decoded as UTF-8; the
text is represented by its byte list.  fp.read returns the available prefix,
so a declared length larger than the remaining stream silently yields a
short string. -/
def read_string (s : List Nat) : Option (List Nat × List Nat) :=
  match read_leb128 s with
  | some (n, s1) => some (fpRead n s1)
  | none => none

/-- Little-endian 4-byte encoding of a value below 2^32 (the digit list of
int.to_bytes(4, little)). -/
def u32le (n : Nat) : List Nat :=
  [n % 256, n / 256 % 256, n / 65536 % 256, n / 16777216 % 256]

/-- SURFACE_FORMATS of the source: the twenty recognized surface formats, in
declaration order. -/
def SURFACE_FORMATS : List String :=
  ["Color", "Bgr565", "Bgra5551", "Bgra4444", "Dxt1", "Dxt3", "Dxt5",
   "NormalizedByte2", "NormalizedByte4", "Rgba1010102", "Rg32", "Rgba64",
   "Alpha8", "Single", "Vector2", "Vector4", "HalfSingle", "HalfVector2",
   "HalfVector4", "HdrBlendable"]

/-- Outcome of ObjectReader._col_as_rgba on one texel. -/
inductive ColResult where
  /-- the texel channel values (bytes, or float32 bit patterns for the
  float formats) and the remaining stream -/
  | ok (pixel : List Nat) (rest : List Nat) : ColResult
  /-- sys.exit(1): the Dxt branches abort the run -/
  | fatalExit : ColResult
  /-- struct.unpack applied to the file object itself instead of bytes read
  from it (the Half branches): an unconditional TypeError, no bytes
  consumed -/
  | typeError : ColResult
  /-- struct.error from a fixed-width read past the end of the stream -/
  | truncated : ColResult
  /-- the final error call for an unrecognized tag: a message is printed and
  the function returns None with the stream untouched; the caller keeps
  going -/
  | noValue (rest : List Nat) : ColResult
deriving DecidableEq

/-- ObjectReader._col_as_rgba: unpack one texel of the given surface format
from the stream. -/
def col_as_rgba (typ : String) (s : List Nat) : ColResult :=
  if typ = "Color" then
    match s with
    | r :: g :: b :: a :: rest => .ok [r, g, b, a] rest
    | _ => .truncated
  else if typ = "Bgr565" then
    match read_uint16 s with
    | some (color, rest) =>
        .ok [(color &&& 0xF800) >>> 8, (color &&& 0x07E0) >>> 3,
             (color &&& 0x001F) <<< 3, 0xFF] rest
    | none => .truncated
  else if typ = "Bgra5551" then
    match read_uint16 s with
    | some (color, rest) =>
        .ok [(color &&& 0x7C00) >>> 7, (color &&& 0x03E0) >>> 2,
             (color &&& 0x001F) <<< 3,
             if color &&& 0x8000 = 0x8000 then 0xFF else 0x00] rest
    | none => .truncated
  else if typ = "Bgra4444" then
    match read_uint16 s with
    | some (color, rest) =>
        .ok [(color &&& 0x0F00) >>> 4, color &&& 0x00F0,
             (color &&& 0x000F) <<< 4, (color &&& 0xF000) >>> 8] rest
    | none => .truncated
  else if typ = "Dxt1" ∨ typ = "Dxt3" ∨ typ = "Dxt5" then
    .fatalExit
  else if typ = "NormalizedByte2" then
    match s with
    | c :: a :: rest => .ok [c, c, c, a] rest
    | _ => .truncated
  else if typ = "NormalizedByte4" then
    match s with
    | r :: g :: b :: a :: rest => .ok [r, g, b, a] rest
    | _ => .truncated
  else if typ = "Rgba1010102" then
    match read_uint32 s with
    | some (color, rest) =>
        .ok [(color &&& 0x3FF00000) >>> 20, (color &&& 0x000FFC00) >>> 10,
             color &&& 0x000003FF,
             if color &&& 0xC0000000 = 0xC0000000 then 0xFF
             else if color &&& 0xC0000000 = 0x80000000 then 0x80
             else 0x00] rest
    | none => .truncated
  else if typ = "Rg32" then
    match read_byte s with
    | some (r, s1) =>
        match read_uint32 s1 with
        | some (g, rest) => .ok [r, g, 0x00, 0xFF] rest
        | none => .truncated
    | none => .truncated
  else if typ = "Rgba64" then
    match s with
    | b0 :: b1 :: b2 :: b3 :: b4 :: b5 :: b6 :: b7 :: rest =>
        .ok [(b0 + 256 * b1) / 2, (b2 + 256 * b3) / 2,
             (b4 + 256 * b5) / 2, (b6 + 256 * b7) / 2] rest
    | _ => .truncated
  else if typ = "Alpha8" then
    match read_byte s with
    | some (a, rest) => .ok [0, 0, 0, a] rest
    | none => .truncated
  else if typ = "Single" then
    match read_single s with
    | some (c, rest) => .ok [c, c, c, c] rest
    | none => .truncated
  else if typ = "Vector2" then
    match read_single s with
    | some (x, s1) =>
        match read_single s1 with
        | some (y, rest) => .ok [x, y, 0x00, 0xFF] rest
        | none => .truncated
    | none => .truncated
  else if typ = "Vector4" then
    match read_single s with
    | some (x, s1) =>
        match read_single s1 with
        | some (y, s2) =>
            match read_single s2 with
            | some (z, s3) =>
                match read_single s3 with
                | some (w, rest) => .ok [x, y, z, w] rest
                | none => .truncated
            | none => .truncated
        | none => .truncated
    | none => .truncated
  else if typ = "HalfSingle" then
    .typeError
  else if typ = "HalfVector2" then
    .typeError
  else if typ = "HalfVector4" then
    .typeError
  else if typ = "HdrBlendable" then
    match read_uint16 s with
    | some (c, s1) =>
        match read_uint16 s1 with
        | some (a, rest) => .ok [c / 2, c / 2, c / 2, a / 2] rest
        | none => .truncated
    | none => .truncated
  else
    .noValue s

/-- Reader functions over the byte stream, the shape of the bound methods
the adapters of ObjectReader receive. -/
def Reader (α : Type) : Type := List Nat → Option (α × List Nat)

/-- Dictionary entries as built by ObjectReader.read_dictionary.  The loop
body executes a dict assignment whose key is the key_reader argument and
whose value is the value_reader argument: the reader handles themselves, not
invocation results.  The key is the same object on every iteration, so the
dict after count iterations holds the single entry mapping key_reader to
value_reader when count is positive, and nothing when count is zero. -/
def read_dictionary_entries (key_reader value_reader : Reader α) :
    Nat → List (Reader α × Reader α)
  | 0 => []
  | _ + 1 => [(key_reader, value_reader)]

/-- ObjectReader.read_dictionary: reads the unsigned 32-bit count, then runs
the loop of dict assignments described at read_dictionary_entries.  The loop
never touches the stream: neither reader is invoked. -/
def read_dictionary (key_reader value_reader : Reader α) (s : List Nat) :
    Option (List (Reader α × Reader α) × List Nat) :=
  match read_uint32 s with
  | some (count, s1) =>
      some (read_dictionary_entries key_reader value_reader count, s1)
  | none => none

/-- Modelled from the spec: the invoke-then-insert dictionary semantics of
section 4.4 (count, then per entry invoke the key reader, invoke the value
reader, insert decoded key mapped to decoded value); the source's
read_dictionary does not implement this (the defect the spec flags in
section 9). -/
def read_dictionary_intended_entries (key_reader value_reader : Reader α) :
    Nat → List Nat → Option (List (α × α) × List Nat)
  | 0, s => some ([], s)
  | n + 1, s =>
      match key_reader s with
      | some (k, s1) =>
          match value_reader s1 with
          | some (v, s2) =>
              match read_dictionary_intended_entries key_reader value_reader n s2 with
              | some (d, s3) => some ((k, v) :: d, s3)
              | none => none
          | none => none
      | none => none

/-- Modelled from the spec: the full intended dictionary adapter (unsigned
32-bit count, then invoke-then-insert entries). -/
def read_dictionary_intended (key_reader value_reader : Reader α)
    (s : List Nat) : Option (List (α × α) × List Nat) :=
  match read_uint32 s with
  | some (count, s1) =>
      read_dictionary_intended_entries key_reader value_reader count s1
  | none => none

/-- ObjectReader.read_datetime: a signed 64-bit value; kind is the Python
arithmetic right shift of the signed value by 62 (floor division by 2^62),
ticks is the bitwise and of the signed value with the complement of
3 shifted left by 62 (Python unbounded two's-complement bitwise ops). -/
def read_datetime (s : List Nat) : Option ((Int × Int) × List Nat) :=
  match read_int64 s with
  | some (value, r) =>
      some ((Int.fdiv value (2 ^ 62),
             Int.land value (Int.lnot (3 * 2 ^ 62))), r)
  | none => none

/-- Modelled from the spec: the canonical minimal-length LEB128 encoding of
an unsigned integer (7 payload bits per byte, high bit set on every byte but
the last, least-significant group first).  The source has no encoder; claim
C8 compares the source decoder against this. -/
def leb128_encode (n : Nat) : List Nat :=
  if _ : n < 128 then [n]
  else (n % 128 + 128) :: leb128_encode (n / 128)
termination_by n
decreasing_by exact Nat.div_lt_self (by omega) (by omega)

/-- Outcome of parse_object for one object. -/
inductive ParseObjectResult (α : Type) where
  /-- type reference 0: the null sentinel, nothing read beyond the
  reference -/
  | nullObject : ParseObjectResult α
  /-- the in-table dispatch succeeded: zero-based type id, decoded value,
  remaining stream -/
  | ok (type_id : Nat) (value : α) (rest : List Nat) : ParseObjectResult α
  /-- the type id is at or beyond the table length: indexing the table
  raises IndexError; the except handler prints a message but its return
  statement indexes the table again with the same id, raising a second,
  uncaught IndexError that aborts the run (the failure-code tuple is never
  returned) -/
  | indexErrorCrash : ParseObjectResult α
  /-- read_leb128 hit the end of the stream (uncaught IndexError on an
  empty read) -/
  | leb128Truncated : ParseObjectResult α
  /-- the dispatched reader itself raised -/
  | readerRaised : ParseObjectResult α
deriving DecidableEq

/-- parse_object of the source: reads one LEB128 type reference, subtracts
one, treats minus one as null, otherwise indexes the reader table by the
zero-based id and dispatches on the entry's qualified name.  The dispatch
argument stands for constructing an ObjectReader on the name and calling
parse (qualified names are UTF-8 byte lists). -/
def parse_object (dispatch : List Nat → Reader α) (readers : List (List Nat))
    (s : List Nat) : ParseObjectResult α :=
  match read_leb128 s with
  | none => .leb128Truncated
  | some (n, s1) =>
      if n = 0 then .nullObject
      else
        match readers.get? (n - 1) with
        | some name =>
            match dispatch name s1 with
            | some (v, r) => .ok (n - 1) v r
            | none => .readerRaised
        | none => .indexErrorCrash

/-- List-building loop over a fixed iteration count, the shape of the
Python for-range loops that append one decoded element per iteration. -/
def readCount (f : Reader α) : Nat → List Nat → Option (List α × List Nat)
  | 0, s => some ([], s)
  | n + 1, s =>
      match f s with
      | some (a, s1) =>
          match readCount f n s1 with
          | some (as, s2) => some (a :: as, s2)
          | none => none
      | none => none

/-- Python list indexing with a possibly negative index: a negative index
counts from the end; an index out of range on either side raises IndexError
(none). -/
def pyListGet (l : List α) (i : Int) : Option α :=
  if 0 ≤ i then l.get? i.toNat
  else if i + l.length < 0 then none
  else l.get? (i + l.length).toNat

/-- ObjectReader.read_vector3: three float32 components (bit patterns). -/
structure Vec3 where
  x : Nat
  y : Nat
  z : Nat
deriving DecidableEq

/-- ObjectReader.read_vector3. -/
def read_vector3 (s : List Nat) : Option (Vec3 × List Nat) :=
  match read_single s with
  | some (x, s1) =>
      match read_single s1 with
      | some (y, s2) =>
          match read_single s2 with
          | some (z, s3) => some ({ x := x, y := y, z := z }, s3)
          | none => none
      | none => none
  | none => none

/-- ObjectReader.read_matrix: a 4 by 4 tuple of float32 reads, row by
row (bit patterns). -/
def read_matrix (s : List Nat) : Option (List (List Nat) × List Nat) :=
  readCount (readCount read_single 4) 4 s

/-- ObjectReader.read_bounding_sphere: center vector and float32 radius. -/
structure BoundingSphere where
  center : Vec3
  radius : Nat
deriving DecidableEq

/-- ObjectReader.read_bounding_sphere. -/
def read_bounding_sphere (s : List Nat) : Option (BoundingSphere × List Nat) :=
  match read_vector3 s with
  | some (c, s1) =>
      match read_single s1 with
      | some (r, s2) => some ({ center := c, radius := r }, s2)
      | none => none
  | none => none

/-- ObjectReader.read_object: reads a length-prefixed qualified name, then
constructs a fresh ObjectReader on that name and parses.  The dispatch
argument stands for parsers.get on the name followed by invocation
(parsers.get of an unbound name yields a reader returning None). -/
def read_object (dispatch : List Nat → Reader α) (s : List Nat) :
    Option (α × List Nat) :=
  match read_string s with
  | some (name, s1) => dispatch name s1
  | none => none

/-- formats table of ObjectReader.read_vertex_declaration. -/
def VD_FORMATS : List String :=
  ["Single", "Vector2", "Vector3", "Vector4", "Color", "Byte4", "Short2",
   "Short4", "NormalizedShort2", "NormalizedShort4", "HalfVector2",
   "HalfVector4"]

/-- usage table of ObjectReader.read_vertex_declaration. -/
def VD_USAGE : List String :=
  ["Position", "Color", "TextureCoordinate", "Normal", "Binormal", "Tangent",
   "BlendIndices", "BlendWeight", "Depth", "Fog", "PointSize", "Sample",
   "TessellateFactor"]

/-- One element of a vertex declaration. -/
structure VDElem where
  offset : Nat
  element_format : String
  element_usage : String
  usage_index : Nat
deriving DecidableEq

/-- Loop body of read_vertex_declaration: offset, format index into the
formats table, usage index into the usage table, usage_index. -/
def read_vd_elem (s : List Nat) : Option (VDElem × List Nat) :=
  match read_uint32 s with
  | some (offset, s1) =>
      match read_int32 s1 with
      | some (fi, s2) =>
          match pyListGet VD_FORMATS fi with
          | some fmt =>
              match read_int32 s2 with
              | some (ui, s3) =>
                  match pyListGet VD_USAGE ui with
                  | some usg =>
                      match read_uint32 s3 with
                      | some (usage_index, s4) =>
                          some ({ offset := offset, element_format := fmt,
                                  element_usage := usg,
                                  usage_index := usage_index }, s4)
                      | none => none
                  | none => none
              | none => none
          | none => none
      | none => none
  | none => none

/-- ObjectReader.read_vertex_declaration result. -/
structure VertexDeclaration where
  vertex_stride : Nat
  element_count : Nat
  elements : List VDElem
deriving DecidableEq

/-- ObjectReader.read_vertex_declaration. -/
def read_vertex_declaration (s : List Nat) :
    Option (VertexDeclaration × List Nat) :=
  match read_uint32 s with
  | some (stride, s1) =>
      match read_uint32 s1 with
      | some (elem_count, s2) =>
          match readCount read_vd_elem elem_count s2 with
          | some (elems, s3) =>
              some ({ vertex_stride := stride, element_count := elem_count,
                      elements := elems }, s3)
          | none => none
      | none => none
  | none => none

/-- ObjectReader.read_vertex_buffer result; vertex_data is fp.read of
vertex_count times the stride (a short read at end of stream is silent). -/
structure VertexBuffer where
  vertex_declaration : VertexDeclaration
  vertex_count : Nat
  vertex_data : List Nat
deriving DecidableEq

/-- ObjectReader.read_vertex_buffer. -/
def read_vertex_buffer (s : List Nat) : Option (VertexBuffer × List Nat) :=
  match read_vertex_declaration s with
  | some (decl, s1) =>
      match read_uint32 s1 with
      | some (vertex_count, s2) =>
          some ({ vertex_declaration := decl, vertex_count := vertex_count,
                  vertex_data := (fpRead (vertex_count * decl.vertex_stride) s2).1 },
                (fpRead (vertex_count * decl.vertex_stride) s2).2)
      | none => none
  | none => none

/-- ObjectReader.read_index_buffer: a boolean selects 16-bit or 32-bit
elements; the byte-size field divided by the element size gives the element
count. -/
def read_index_buffer (s : List Nat) : Option (List Int × List Nat) :=
  match read_boolean s with
  | some (is_short, s1) =>
      match read_uint32 s1 with
      | some (size, s2) =>
          readCount (if is_short then read_int16 else read_int32)
            (size / (if is_short then 2 else 4)) s2
      | none => none
  | none => none

/-- ObjectReader.read_effect: a length-prefixed opaque bytecode blob
(fp.read, so a short read at end of stream is silent). -/
def read_effect (s : List Nat) : Option (List Nat × List Nat) :=
  match read_uint32 s with
  | some (size, s1) => some (fpRead size s1)
  | none => none

/-- Bone metadata entry of read_model (name and transform, built by the
first loop and dropped by the return statement). -/
structure BoneMeta where
  name : List Nat
  transform : List (List Nat)
deriving DecidableEq

/-- First loop body of read_model. -/
def read_bone_meta_entry (s : List Nat) : Option (BoneMeta × List Nat) :=
  match read_string s with
  | some (name, s1) =>
      match read_matrix s1 with
      | some (m, s2) => some ({ name := name, transform := m }, s2)
      | none => none
  | none => none

/-- Bone reference entry of read_model (parent and children, built by the
second loop and dropped by the return statement). -/
structure BoneRef where
  parent : Nat
  children : List Nat
deriving DecidableEq

/-- Second loop body of read_model: parent reference, child count, child
references, all by the width-selected reference reader. -/
def read_bone_ref (refReader : Reader Nat) (s : List Nat) :
    Option (BoneRef × List Nat) :=
  match refReader s with
  | some (parent, s1) =>
      match read_uint32 s1 with
      | some (child_count, s2) =>
          match readCount refReader child_count s2 with
          | some (children, s3) =>
              some ({ parent := parent, children := children }, s3)
          | none => none
      | none => none
  | none => none

/-- One mesh part of read_model. -/
structure MeshPart (α : Type) where
  vertex_offset : Nat
  num_vertices : Nat
  start_index : Nat
  primitive_count : Nat
  mesh_part_tag : α
  vertex_buffer : VertexBuffer
  index_buffer : List Int
  effect : List Nat
deriving DecidableEq

/-- Mesh-part loop body of read_model. -/
def read_mesh_part (dispatch : List Nat → Reader α) (s : List Nat) :
    Option (MeshPart α × List Nat) :=
  match read_uint32 s with
  | some (vertex_offset, s1) =>
      match read_uint32 s1 with
      | some (num_vertices, s2) =>
          match read_uint32 s2 with
          | some (start_index, s3) =>
              match read_uint32 s3 with
              | some (primitive_count, s4) =>
                  match read_object dispatch s4 with
                  | some (tag, s5) =>
                      match read_vertex_buffer s5 with
                      | some (vb, s6) =>
                          match read_index_buffer s6 with
                          | some (ib, s7) =>
                              match read_effect s7 with
                              | some (eff, s8) =>
                                  some ({ vertex_offset := vertex_offset,
                                          num_vertices := num_vertices,
                                          start_index := start_index,
                                          primitive_count := primitive_count,
                                          mesh_part_tag := tag,
                                          vertex_buffer := vb,
                                          index_buffer := ib,
                                          effect := eff }, s8)
                              | none => none
                          | none => none
                      | none => none
                  | none => none
              | none => none
          | none => none
      | none => none
  | none => none

/-- One mesh of read_model. -/
structure Mesh (α : Type) where
  name : List Nat
  parent_bone : Nat
  bounds : BoundingSphere
  tag : α
  parts : List (MeshPart α)
deriving DecidableEq

/-- Mesh loop body of read_model: name, width-selected parent bone
reference, bounding sphere, tag object, parts. -/
def read_mesh (dispatch : List Nat → Reader α) (refReader : Reader Nat)
    (s : List Nat) : Option (Mesh α × List Nat) :=
  match read_string s with
  | some (name, s1) =>
      match refReader s1 with
      | some (parent_bone, s2) =>
          match read_bounding_sphere s2 with
          | some (bounds, s3) =>
              match read_object dispatch s3 with
              | some (tag, s4) =>
                  match read_uint32 s4 with
                  | some (part_count, s5) =>
                      match readCount (read_mesh_part dispatch) part_count s5 with
                      | some (parts, s6) =>
                          some ({ name := name, parent_bone := parent_bone,
                                  bounds := bounds, tag := tag,
                                  parts := parts }, s6)
                      | none => none
                  | none => none
              | none => none
          | none => none
      | none => none
  | none => none

/-- Model record returned by read_model: only the meshes, root bone
reference and tag survive to the result (the bone metadata and bone
reference lists are decoded and then dropped). -/
structure Model (α : Type) where
  meshes : List (Mesh α)
  root_bone : Nat
  model_tag : α
deriving DecidableEq

/-- reference_reader selection of read_model: 1-byte indices when the bone
count is below 255, 4-byte indices otherwise. -/
def modelRefReader (bone_count : Nat) : Reader Nat :=
  if bone_count < 255 then read_byte else read_uint32

/-- ObjectReader.read_model. -/
def read_model (dispatch : List Nat → Reader α) (s : List Nat) :
    Option (Model α × List Nat) :=
  match read_uint32 s with
  | some (bone_count, s1) =>
      let refReader := modelRefReader bone_count
      match readCount read_bone_meta_entry bone_count s1 with
      | some (_bone_meta, s2) =>
          match readCount (read_bone_ref refReader) bone_count s2 with
          | some (_bone_refs, s3) =>
              match read_uint32 s3 with
              | some (mesh_count, s4) =>
                  match readCount (read_mesh dispatch refReader) mesh_count s4 with
                  | some (meshes, s5) =>
                      match refReader s5 with
                      | some (root_bone, s6) =>
                          match read_object dispatch s6 with
                          | some (model_tag, s7) =>
                              some ({ meshes := meshes,
                                      root_bone := root_bone,
                                      model_tag := model_tag }, s7)
                          | none => none
                      | none => none
                  | none => none
              | none => none
          | none => none
      | none => none
  | none => none

/-- Metadata record returned by ObjectReader.read_sound_effect. -/
structure SoundEffectMeta where
  loop_start : Int
  loop_length : Int
  duration : Int
deriving DecidableEq

/-- int.to_bytes(4, little): the 4-byte little-endian digits, raising
OverflowError (none) for a value at or above 2^32. -/
def toBytes4le (n : Nat) : Option (List Nat) :=
  if n < 2 ^ 32 then some (u32le n) else none

/-- ObjectReader.read_sound_effect: discard the format-chunk size, read 18
bytes and trim the last 2, read the length-prefixed PCM payload, synthesize
the RIFF/WAVE artifact, then read the three trailing int32 metadata fields.
The first component of the result is the synthesized WAV byte sequence
(written to disk by the source before the trailing fields are read). -/
def read_sound_effect (s : List Nat) :
    Option ((List Nat × SoundEffectMeta) × List Nat) :=
  match read_uint32 s with
  | none => none
  | some (_format_size, s1) =>
      let raw := (fpRead 18 s1).1
      let s2 := (fpRead 18 s1).2
      let waveformatex := raw.take (raw.length - 2)
      match read_uint32 s2 with
      | none => none
      | some (data_size, s3) =>
          let data := (fpRead data_size s3).1
          let s4 := (fpRead data_size s3).2
          match toBytes4le (data_size + 36) with
          | none => none
          | some riffSize =>
              match toBytes4le data_size with
              | none => none
              | some dataSizeBytes =>
                  let wav := [82, 73, 70, 70] ++ riffSize ++
                    [87, 65, 86, 69, 102, 109, 116, 32, 16, 0, 0, 0] ++
                    waveformatex ++ [100, 97, 116, 97] ++ dataSizeBytes ++ data
                  match read_int32 s4 with
                  | none => none
                  | some (loop_start, s5) =>
                      match read_int32 s5 with
                      | none => none
                      | some (loop_length, s6) =>
                          match read_int32 s6 with
                          | none => none
                          | some (duration, s7) =>
                              some ((wav,
                                { loop_start := loop_start,
                                  loop_length := loop_length,
                                  duration := duration }), s7)

/-- Well-formed byte streams: every entry is an actual byte value. -/
abbrev Bytes (s : List Nat) : Prop := ∀ b ∈ s, b < 256

/-- Reader soundness: on a well-formed stream, a successful read yields a
value satisfying P and a well-formed remaining stream. -/
def ReaderOK (f : Reader α) (P : α → Prop) : Prop :=
  ∀ s v r, Bytes s → f s = some (v, r) → P v ∧ Bytes r

/-- Dispatch soundness: every bound reader preserves stream
well-formedness. -/
def DispatchPres (dispatch : List Nat → Reader α) : Prop :=
  ∀ name s v r, Bytes s → dispatch name s = some (v, r) → Bytes r

theorem bytes_cons {b : Nat} {s : List Nat} (h : Bytes (b :: s)) :
    b < 256 ∧ Bytes s :=
  ⟨h b (List.mem_cons_self b s), fun x hx => h x (List.mem_cons_of_mem b hx)⟩

theorem bytes_take {s : List Nat} (h : Bytes s) (n : Nat) :
    Bytes (s.take n) :=
  fun b hb => h b (List.mem_of_mem_take hb)

theorem bytes_drop {s : List Nat} (h : Bytes s) (n : Nat) :
    Bytes (s.drop n) :=
  fun b hb => h b (List.mem_of_mem_drop hb)

theorem readerOK_read_byte : ReaderOK read_byte (· < 256) := by
  intro s v r hB h
  cases s with
  | nil => simp [read_byte] at h
  | cons b t =>
      simp [read_byte] at h
      obtain ⟨hv, hr⟩ := h
      obtain ⟨hb, ht⟩ := bytes_cons hB
      subst hv hr
      exact ⟨hb, ht⟩

theorem readerOK_read_uint32 : ReaderOK read_uint32 (fun _ => True) := by
  intro s v r hB h
  cases s with
  | nil => simp [read_uint32] at h
  | cons b0 t0 =>
    cases t0 with
    | nil => simp [read_uint32] at h
    | cons b1 t1 =>
      cases t1 with
      | nil => simp [read_uint32] at h
      | cons b2 t2 =>
        cases t2 with
        | nil => simp [read_uint32] at h
        | cons b3 t3 =>
          simp [read_uint32] at h
          refine ⟨trivial, ?_⟩
          rw [← h.2]
          exact (bytes_cons (bytes_cons (bytes_cons (bytes_cons hB).2).2).2).2

theorem readerOK_read_single : ReaderOK read_single (fun _ => True) := by
  intro s v r hB h
  cases s with
  | nil => simp [read_single] at h
  | cons b0 t0 =>
    cases t0 with
    | nil => simp [read_single] at h
    | cons b1 t1 =>
      cases t1 with
      | nil => simp [read_single] at h
      | cons b2 t2 =>
        cases t2 with
        | nil => simp [read_single] at h
        | cons b3 t3 =>
          simp [read_single] at h
          refine ⟨trivial, ?_⟩
          rw [← h.2]
          exact (bytes_cons (bytes_cons (bytes_cons (bytes_cons hB).2).2).2).2

theorem readerOK_read_int32 : ReaderOK read_int32 (fun _ => True) := by
  intro s v r hB h
  cases s with
  | nil => simp [read_int32] at h
  | cons b0 t0 =>
    cases t0 with
    | nil => simp [read_int32] at h
    | cons b1 t1 =>
      cases t1 with
      | nil => simp [read_int32] at h
      | cons b2 t2 =>
        cases t2 with
        | nil => simp [read_int32] at h
        | cons b3 t3 =>
          simp [read_int32] at h
          refine ⟨trivial, ?_⟩
          rw [← h.2]
          exact (bytes_cons (bytes_cons (bytes_cons (bytes_cons hB).2).2).2).2

theorem readerOK_read_int16 : ReaderOK read_int16 (fun _ => True) := by
  intro s v r hB h
  cases s with
  | nil => simp [read_int16] at h
  | cons b0 t0 =>
    cases t0 with
    | nil => simp [read_int16] at h
    | cons b1 t1 =>
      simp [read_int16] at h
      refine ⟨trivial, ?_⟩
      rw [← h.2]
      exact (bytes_cons (bytes_cons hB).2).2

theorem readerOK_read_boolean : ReaderOK read_boolean (fun _ => True) := by
  intro s v r hB h
  cases s with
  | nil => simp [read_boolean, read_byte] at h
  | cons b t =>
      simp [read_boolean, read_byte] at h
      rw [← h.2]
      exact ⟨trivial, (bytes_cons hB).2⟩

theorem readerOK_read_leb128_aux (acc i : Nat) :
    ∀ s v r, Bytes s → read_leb128_aux s acc i = some (v, r) → Bytes r := by
  intro s
  induction s generalizing acc with
  | nil => intro v r _ h; simp [read_leb128_aux] at h
  | cons b t ih =>
      intro v r hB h
      rw [read_leb128_aux] at h
      split at h
      · cases h; exact (bytes_cons hB).2
      · exact ih _ v r (bytes_cons hB).2 h

theorem readerOK_read_leb128 : ReaderOK read_leb128 (fun _ => True) := by
  intro s v r hB h
  exact ⟨trivial, readerOK_read_leb128_aux 0 0 s v r hB h⟩

theorem readerOK_read_string : ReaderOK read_string (fun _ => True) := by
  intro s v r hB h
  rw [read_string] at h
  cases hl : read_leb128 s with
  | none => rw [hl] at h; simp at h
  | some p =>
      rw [hl] at h
      obtain ⟨n, s1⟩ := p
      simp [fpRead] at h
      obtain ⟨hBr⟩ := readerOK_read_leb128 s n s1 hB hl
      rw [← h.2]
      exact ⟨trivial, bytes_drop (by assumption) n⟩

theorem readerOK_readCount {f : Reader α} {P : α → Prop}
    (hf : ReaderOK f P) :
    ∀ n, ReaderOK (readCount f n) (fun vs => ∀ v ∈ vs, P v) := by
  intro n
  induction n with
  | zero =>
      intro s v r hB h
      simp [readCount] at h
      rcases h with ⟨rfl, rfl⟩
      exact ⟨by simp, hB⟩
  | succ m ih =>
      intro s v r hB h
      rw [readCount] at h
      split at h
      · rename_i a s1 h1
        split at h
        · rename_i as s2 h2
          cases h
          obtain ⟨hPa, hB1⟩ := hf s a s1 hB h1
          obtain ⟨hPas, hB2⟩ := ih s1 as r hB1 h2
          refine ⟨?_, hB2⟩
          intro v hv
          rcases List.mem_cons.mp hv with hv | hv
          · rw [hv]; exact hPa
          · exact hPas v hv
        · simp at h
      · simp at h

theorem readerOK_true_of {f : Reader α} {P : α → Prop} (h : ReaderOK f P) :
    ReaderOK f (fun _ => True) :=
  fun s v r hB hs => ⟨trivial, (h s v r hB hs).2⟩

theorem readerOK_read_vector3 : ReaderOK read_vector3 (fun _ => True) := by
  intro s v r hB h
  rw [read_vector3] at h
  cases h1 : read_single s with
  | none => simp only [h1] at h; exact Option.noConfusion h
  | some p1 =>
    obtain ⟨x, s1⟩ := p1
    simp only [h1] at h
    cases h2 : read_single s1 with
    | none => simp only [h2] at h; exact Option.noConfusion h
    | some p2 =>
      obtain ⟨y, s2⟩ := p2
      simp only [h2] at h
      cases h3 : read_single s2 with
      | none => simp only [h3] at h; exact Option.noConfusion h
      | some p3 =>
        obtain ⟨z, s3⟩ := p3
        simp only [h3] at h
        cases h
        have hB1 := (readerOK_read_single s x s1 hB h1).2
        have hB2 := (readerOK_read_single s1 y s2 hB1 h2).2
        exact ⟨trivial, (readerOK_read_single s2 z r hB2 h3).2⟩

theorem readerOK_read_matrix : ReaderOK read_matrix (fun _ => True) := by
  intro s v r hB h
  exact ⟨trivial,
    (readerOK_readCount (readerOK_readCount readerOK_read_single 4) 4
      s v r hB h).2⟩

theorem readerOK_read_bounding_sphere :
    ReaderOK read_bounding_sphere (fun _ => True) := by
  intro s v r hB h
  rw [read_bounding_sphere] at h
  cases h1 : read_vector3 s with
  | none => simp only [h1] at h; exact Option.noConfusion h
  | some p1 =>
    obtain ⟨c, s1⟩ := p1
    simp only [h1] at h
    cases h2 : read_single s1 with
    | none => simp only [h2] at h; exact Option.noConfusion h
    | some p2 =>
      obtain ⟨rad, s2⟩ := p2
      simp only [h2] at h
      cases h
      have hB1 := (readerOK_read_vector3 s c s1 hB h1).2
      exact ⟨trivial, (readerOK_read_single s1 rad r hB1 h2).2⟩

theorem readerOK_read_object {dispatch : List Nat → Reader α}
    (hd : DispatchPres dispatch) :
    ReaderOK (read_object dispatch) (fun _ => True) := by
  intro s v r hB h
  rw [read_object] at h
  cases h1 : read_string s with
  | none => simp only [h1] at h; exact Option.noConfusion h
  | some p1 =>
    obtain ⟨name, s1⟩ := p1
    simp only [h1] at h
    have hB1 := (readerOK_read_string s name s1 hB h1).2
    exact ⟨trivial, hd name s1 v r hB1 h⟩

theorem readerOK_read_vd_elem : ReaderOK read_vd_elem (fun _ => True) := by
  intro s v r hB h
  rw [read_vd_elem] at h
  cases h1 : read_uint32 s with
  | none => simp only [h1] at h; exact Option.noConfusion h
  | some p1 =>
    obtain ⟨off, s1⟩ := p1
    simp only [h1] at h
    cases h2 : read_int32 s1 with
    | none => simp only [h2] at h; exact Option.noConfusion h
    | some p2 =>
      obtain ⟨fi, s2⟩ := p2
      simp only [h2] at h
      cases h3 : pyListGet VD_FORMATS fi with
      | none => simp only [h3] at h; exact Option.noConfusion h
      | some fmt =>
        simp only [h3] at h
        cases h4 : read_int32 s2 with
        | none => simp only [h4] at h; exact Option.noConfusion h
        | some p4 =>
          obtain ⟨ui, s3⟩ := p4
          simp only [h4] at h
          cases h5 : pyListGet VD_USAGE ui with
          | none => simp only [h5] at h; exact Option.noConfusion h
          | some usg =>
            simp only [h5] at h
            cases h6 : read_uint32 s3 with
            | none => simp only [h6] at h; exact Option.noConfusion h
            | some p6 =>
              obtain ⟨uidx, s4⟩ := p6
              simp only [h6] at h
              cases h
              have hB1 := (readerOK_read_uint32 s off s1 hB h1).2
              have hB2 := (readerOK_read_int32 s1 fi s2 hB1 h2).2
              have hB3 := (readerOK_read_int32 s2 ui s3 hB2 h4).2
              exact ⟨trivial, (readerOK_read_uint32 s3 uidx r hB3 h6).2⟩

theorem readerOK_read_vertex_declaration :
    ReaderOK read_vertex_declaration (fun _ => True) := by
  intro s v r hB h
  rw [read_vertex_declaration] at h
  cases h1 : read_uint32 s with
  | none => simp only [h1] at h; exact Option.noConfusion h
  | some p1 =>
    obtain ⟨stride, s1⟩ := p1
    simp only [h1] at h
    cases h2 : read_uint32 s1 with
    | none => simp only [h2] at h; exact Option.noConfusion h
    | some p2 =>
      obtain ⟨ec, s2⟩ := p2
      simp only [h2] at h
      cases h3 : readCount read_vd_elem ec s2 with
      | none => simp only [h3] at h; exact Option.noConfusion h
      | some p3 =>
        obtain ⟨elems, s3⟩ := p3
        simp only [h3] at h
        cases h
        have hB1 := (readerOK_read_uint32 s stride s1 hB h1).2
        have hB2 := (readerOK_read_uint32 s1 ec s2 hB1 h2).2
        exact ⟨trivial,
          (readerOK_readCount readerOK_read_vd_elem ec s2 elems r hB2 h3).2⟩

theorem readerOK_read_vertex_buffer :
    ReaderOK read_vertex_buffer (fun _ => True) := by
  intro s v r hB h
  rw [read_vertex_buffer] at h
  cases h1 : read_vertex_declaration s with
  | none => simp only [h1] at h; exact Option.noConfusion h
  | some p1 =>
    obtain ⟨decl, s1⟩ := p1
    simp only [h1] at h
    cases h2 : read_uint32 s1 with
    | none => simp only [h2] at h; exact Option.noConfusion h
    | some p2 =>
      obtain ⟨vc, s2⟩ := p2
      simp only [h2] at h
      cases h
      have hB1 := (readerOK_read_vertex_declaration s decl s1 hB h1).2
      have hB2 := (readerOK_read_uint32 s1 vc s2 hB1 h2).2
      exact ⟨trivial, bytes_drop hB2 _⟩

theorem readerOK_read_index_buffer :
    ReaderOK read_index_buffer (fun _ => True) := by
  intro s v r hB h
  rw [read_index_buffer] at h
  cases h1 : read_boolean s with
  | none => simp only [h1] at h; exact Option.noConfusion h
  | some p1 =>
    obtain ⟨is_short, s1⟩ := p1
    simp only [h1] at h
    cases h2 : read_uint32 s1 with
    | none => simp only [h2] at h; exact Option.noConfusion h
    | some p2 =>
      obtain ⟨size, s2⟩ := p2
      simp only [h2] at h
      have hB1 := (readerOK_read_boolean s is_short s1 hB h1).2
      have hB2 := (readerOK_read_uint32 s1 size s2 hB1 h2).2
      have helem : ReaderOK (if is_short then read_int16 else read_int32)
          (fun _ => True) := by
        cases is_short with
        | true => simpa using readerOK_read_int16
        | false => simpa using readerOK_read_int32
      exact ⟨trivial, (readerOK_readCount helem _ s2 v r hB2 h).2⟩

theorem readerOK_read_effect : ReaderOK read_effect (fun _ => True) := by
  intro s v r hB h
  rw [read_effect] at h
  cases h1 : read_uint32 s with
  | none => simp only [h1] at h; exact Option.noConfusion h
  | some p1 =>
    obtain ⟨size, s1⟩ := p1
    simp only [h1] at h
    cases h
    have hB1 := (readerOK_read_uint32 s size s1 hB h1).2
    exact ⟨trivial, bytes_drop hB1 _⟩

theorem readerOK_read_bone_meta_entry :
    ReaderOK read_bone_meta_entry (fun _ => True) := by
  intro s v r hB h
  rw [read_bone_meta_entry] at h
  cases h1 : read_string s with
  | none => simp only [h1] at h; exact Option.noConfusion h
  | some p1 =>
    obtain ⟨name, s1⟩ := p1
    simp only [h1] at h
    cases h2 : read_matrix s1 with
    | none => simp only [h2] at h; exact Option.noConfusion h
    | some p2 =>
      obtain ⟨m, s2⟩ := p2
      simp only [h2] at h
      cases h
      have hB1 := (readerOK_read_string s name s1 hB h1).2
      exact ⟨trivial, (readerOK_read_matrix s1 m r hB1 h2).2⟩

theorem readerOK_read_bone_ref {refReader : Reader Nat}
    (hr : ReaderOK refReader (fun _ => True)) :
    ReaderOK (read_bone_ref refReader) (fun _ => True) := by
  intro s v r hB h
  rw [read_bone_ref] at h
  cases h1 : refReader s with
  | none => simp only [h1] at h; exact Option.noConfusion h
  | some p1 =>
    obtain ⟨parent, s1⟩ := p1
    simp only [h1] at h
    cases h2 : read_uint32 s1 with
    | none => simp only [h2] at h; exact Option.noConfusion h
    | some p2 =>
      obtain ⟨cc, s2⟩ := p2
      simp only [h2] at h
      cases h3 : readCount refReader cc s2 with
      | none => simp only [h3] at h; exact Option.noConfusion h
      | some p3 =>
        obtain ⟨children, s3⟩ := p3
        simp only [h3] at h
        cases h
        have hB1 := (hr s parent s1 hB h1).2
        have hB2 := (readerOK_read_uint32 s1 cc s2 hB1 h2).2
        exact ⟨trivial, (readerOK_readCount hr cc s2 children r hB2 h3).2⟩

theorem readerOK_read_mesh_part {dispatch : List Nat → Reader α}
    (hd : DispatchPres dispatch) :
    ReaderOK (read_mesh_part dispatch) (fun _ => True) := by
  intro s v r hB h
  rw [read_mesh_part] at h
  cases h1 : read_uint32 s with
  | none => simp only [h1] at h; exact Option.noConfusion h
  | some p1 =>
    obtain ⟨vo, s1⟩ := p1
    simp only [h1] at h
    cases h2 : read_uint32 s1 with
    | none => simp only [h2] at h; exact Option.noConfusion h
    | some p2 =>
      obtain ⟨nv, s2⟩ := p2
      simp only [h2] at h
      cases h3 : read_uint32 s2 with
      | none => simp only [h3] at h; exact Option.noConfusion h
      | some p3 =>
        obtain ⟨si, s3⟩ := p3
        simp only [h3] at h
        cases h4 : read_uint32 s3 with
        | none => simp only [h4] at h; exact Option.noConfusion h
        | some p4 =>
          obtain ⟨pc, s4⟩ := p4
          simp only [h4] at h
          cases h5 : read_object dispatch s4 with
          | none => simp only [h5] at h; exact Option.noConfusion h
          | some p5 =>
            obtain ⟨tag, s5⟩ := p5
            simp only [h5] at h
            cases h6 : read_vertex_buffer s5 with
            | none => simp only [h6] at h; exact Option.noConfusion h
            | some p6 =>
              obtain ⟨vb, s6⟩ := p6
              simp only [h6] at h
              cases h7 : read_index_buffer s6 with
              | none => simp only [h7] at h; exact Option.noConfusion h
              | some p7 =>
                obtain ⟨ib, s7⟩ := p7
                simp only [h7] at h
                cases h8 : read_effect s7 with
                | none => simp only [h8] at h; exact Option.noConfusion h
                | some p8 =>
                  obtain ⟨eff, s8⟩ := p8
                  simp only [h8] at h
                  cases h
                  have hB1 := (readerOK_read_uint32 s vo s1 hB h1).2
                  have hB2 := (readerOK_read_uint32 s1 nv s2 hB1 h2).2
                  have hB3 := (readerOK_read_uint32 s2 si s3 hB2 h3).2
                  have hB4 := (readerOK_read_uint32 s3 pc s4 hB3 h4).2
                  have hB5 := (readerOK_read_object hd s4 tag s5 hB4 h5).2
                  have hB6 := (readerOK_read_vertex_buffer s5 vb s6 hB5 h6).2
                  have hB7 := (readerOK_read_index_buffer s6 ib s7 hB6 h7).2
                  exact ⟨trivial, (readerOK_read_effect s7 eff r hB7 h8).2⟩

theorem readerOK_read_mesh {dispatch : List Nat → Reader α}
    (hd : DispatchPres dispatch) {refReader : Reader Nat} {P : Nat → Prop}
    (hr : ReaderOK refReader P) :
    ReaderOK (read_mesh dispatch refReader) (fun m => P m.parent_bone) := by
  intro s v r hB h
  rw [read_mesh] at h
  cases h1 : read_string s with
  | none => simp only [h1] at h; exact Option.noConfusion h
  | some p1 =>
    obtain ⟨name, s1⟩ := p1
    simp only [h1] at h
    cases h2 : refReader s1 with
    | none => simp only [h2] at h; exact Option.noConfusion h
    | some p2 =>
      obtain ⟨pb, s2⟩ := p2
      simp only [h2] at h
      cases h3 : read_bounding_sphere s2 with
      | none => simp only [h3] at h; exact Option.noConfusion h
      | some p3 =>
        obtain ⟨bounds, s3⟩ := p3
        simp only [h3] at h
        cases h4 : read_object dispatch s3 with
        | none => simp only [h4] at h; exact Option.noConfusion h
        | some p4 =>
          obtain ⟨tag, s4⟩ := p4
          simp only [h4] at h
          cases h5 : read_uint32 s4 with
          | none => simp only [h5] at h; exact Option.noConfusion h
          | some p5 =>
            obtain ⟨pc, s5⟩ := p5
            simp only [h5] at h
            cases h6 : readCount (read_mesh_part dispatch) pc s5 with
            | none => simp only [h6] at h; exact Option.noConfusion h
            | some p6 =>
              obtain ⟨parts, s6⟩ := p6
              simp only [h6] at h
              cases h
              have hB1 := (readerOK_read_string s name s1 hB h1).2
              obtain ⟨hPv, hB2⟩ := hr s1 pb s2 hB1 h2
              have hB3 := (readerOK_read_bounding_sphere s2 bounds s3 hB2 h3).2
              have hB4 := (readerOK_read_object hd s3 tag s4 hB3 h4).2
              have hB5 := (readerOK_read_uint32 s4 pc s5 hB4 h5).2
              have hB6 := (readerOK_readCount (readerOK_read_mesh_part hd)
                pc s5 parts r hB5 h6).2
              exact ⟨hPv, hB6⟩

/-- Bone references of a successfully decoded model with a small bone count
are single bytes: on a well-formed stream, when the bone count is below 255
every reference that reaches the result is below 256. -/
theorem read_model_small_indices {α : Type} {dispatch : List Nat → Reader α}
    (hd : DispatchPres dispatch) {s : List Nat} {m : Model α} {r : List Nat}
    {bc : Nat} {s1 : List Nat} (hB : Bytes s)
    (hbc : read_uint32 s = some (bc, s1)) (hlt : bc < 255)
    (h : read_model dispatch s = some (m, r)) :
    m.root_bone < 256 ∧ ∀ mesh ∈ m.meshes, mesh.parent_bone < 256 := by
  rw [read_model] at h
  rw [hbc] at h
  simp only [modelRefReader, if_pos hlt] at h
  cases h2 : readCount read_bone_meta_entry bc s1 with
  | none => simp only [h2] at h; exact Option.noConfusion h
  | some p2 =>
    obtain ⟨bm, s2⟩ := p2
    simp only [h2] at h
    cases h3 : readCount (read_bone_ref read_byte) bc s2 with
    | none => simp only [h3] at h; exact Option.noConfusion h
    | some p3 =>
      obtain ⟨br, s3⟩ := p3
      simp only [h3] at h
      cases h4 : read_uint32 s3 with
      | none => simp only [h4] at h; exact Option.noConfusion h
      | some p4 =>
        obtain ⟨mc, s4⟩ := p4
        simp only [h4] at h
        cases h5 : readCount (read_mesh dispatch read_byte) mc s4 with
        | none => simp only [h5] at h; exact Option.noConfusion h
        | some p5 =>
          obtain ⟨meshes, s5⟩ := p5
          simp only [h5] at h
          cases h6 : read_byte s5 with
          | none => simp only [h6] at h; exact Option.noConfusion h
          | some p6 =>
            obtain ⟨root, s6⟩ := p6
            simp only [h6] at h
            cases h7 : read_object dispatch s6 with
            | none => simp only [h7] at h; exact Option.noConfusion h
            | some p7 =>
              obtain ⟨tag, s7⟩ := p7
              simp only [h7] at h
              cases h
              have hB1 := (readerOK_read_uint32 s bc s1 hB hbc).2
              have hB2 := (readerOK_readCount readerOK_read_bone_meta_entry
                bc s1 bm s2 hB1 h2).2
              have hB3 := (readerOK_readCount
                (readerOK_read_bone_ref (readerOK_true_of readerOK_read_byte))
                bc s2 br s3 hB2 h3).2
              have hB4 := (readerOK_read_uint32 s3 mc s4 hB3 h4).2
              obtain ⟨hmesh, hB5⟩ := readerOK_readCount
                (readerOK_read_mesh hd readerOK_read_byte) mc s4 meshes s5
                hB4 h5
              obtain ⟨hroot, _⟩ := readerOK_read_byte s5 root s6 hB5 h6
              exact ⟨hroot, hmesh⟩

/-- Dispatch used in the concrete runs below: the qualified names those runs
contain are absent from the parsers map, and parsers.get of an absent name
falls back to a reader that returns None without touching the stream. -/
def nullDispatch : List Nat → Reader (Option Unit) :=
  fun _ s => some (none, s)

/-- A concrete model stream: bone count 1, one bone (empty name, zero
matrix), one bone reference (parent 0, no children), one mesh (empty name,
parent bone 7, zero bounding sphere, unknown tag, no parts), root bone 0,
unknown model tag. -/
def modelStreamA : List Nat :=
  [1, 0, 0, 0] ++ [0] ++ List.replicate 64 0 ++ [0] ++ [0, 0, 0, 0] ++
  [1, 0, 0, 0] ++ [0] ++ [7] ++ List.replicate 16 0 ++ [0] ++ [0, 0, 0, 0] ++
  [0] ++ [0]

/-- The decoded model of modelStreamA. -/
def modelA : Model (Option Unit) :=
  { meshes := [{ name := [], parent_bone := 7,
                 bounds := { center := { x := 0, y := 0, z := 0 }, radius := 0 },
                 tag := none, parts := [] }],
    root_bone := 0, model_tag := none }

theorem read_int32_succeeds : ∀ (s : List Nat), 4 ≤ s.length →
    ∃ v, read_int32 s = some (v, s.drop 4)
  | _ :: _ :: _ :: _ :: _, _ => ⟨_, rfl⟩
  | [], h => absurd h (by simp)
  | [_], h => absurd h (by simp)
  | [_, _], h => absurd h (by simp)
  | [_, _, _], h => absurd h (by simp)

/-- C1: the dictionary adapter is specified to read an unsigned 32-bit
count and then, per entry, invoke the key and value decoders and insert the
decoded pair.  The source instead assigns the unwrapped reader handles into
the dict (one slot, since the key object is the same every iteration) and
never consumes the entry bytes.  At count 1 with byte decoders over entry
bytes 7, 9: the code leaves the stream at the entry bytes and returns the
handle pair, while the intended semantics (read_dictionary_intended,
modelled from the spec) consumes them and returns the decoded pair. -/
theorem C1_dictionary_code_bug :
    read_dictionary read_byte read_byte [1, 0, 0, 0, 7, 9] =
      some ([(read_byte, read_byte)], [7, 9]) ∧
    read_dictionary_intended read_byte read_byte [1, 0, 0, 0, 7, 9] =
      some ([(7, 9)], []) :=
  ⟨rfl, rfl⟩

/-- C2 counterexample: the claim says the first unpack attempt on an
unrecognized surface-format tag is a fatal error that aborts the run.  In
the source the final branch only prints an error message and returns None
with the stream untouched, so decoding continues; the outcome is neither
the sys.exit of the Dxt branches nor an exception. -/
theorem C2_counterexample :
    col_as_rgba "Bogus" [1, 2] = ColResult.noValue [1, 2] ∧
    ColResult.noValue [1, 2] ≠ ColResult.fatalExit ∧
    ColResult.noValue [1, 2] ≠ ColResult.typeError ∧
    ColResult.noValue [1, 2] ≠ ColResult.truncated :=
  ⟨by decide, by decide, by decide, by decide⟩

/-- C2 amended: for every tag outside the twenty recognized surface
formats, the texel unpacker prints an error and returns no value, leaving
the stream untouched; it does not abort the run. -/
theorem C2_unknown_format_not_fatal (typ : String)
    (h : typ ∉ SURFACE_FORMATS) (s : List Nat) :
    col_as_rgba typ s = ColResult.noValue s := by
  simp only [SURFACE_FORMATS, List.mem_cons, List.mem_singleton, not_or] at h
  obtain ⟨h1, h2, h3, h4, h5, h6, h7, h8, h9, h10,
          h11, h12, h13, h14, h15, h16, h17, h18, h19, h20⟩ := h
  simp [col_as_rgba, h1, h2, h3, h4, h5, h6, h7, h8, h9, h10,
        h11, h12, h13, h14, h15, h16, h17, h18, h19, h20]

theorem C2_witness :
    "Bogus" ∉ SURFACE_FORMATS ∧
    col_as_rgba "Bogus" [3] = ColResult.noValue [3] :=
  ⟨by decide, C2_unknown_format_not_fatal "Bogus" (by decide) [3]⟩

/-- C3 counterexample: the claim says an out-of-range type reference yields
a RegistryError distinguishable by the caller as a distinct failure code.
In the source the except handler evaluates the out-of-range table index a
second time while building its return tuple, so the handler itself raises
an uncaught IndexError: the run aborts with no failure code returned (and
the code the handler meant to return, 1, would equal the FormatError code
anyway).  Concretely, type reference 2 against an empty reader table. -/
theorem C3_counterexample :
    parse_object nullDispatch [] [2] = ParseObjectResult.indexErrorCrash := by
  decide

/-- C3 amended: a type reference N with N minus 1 at or beyond the table
length aborts the decode, but via an uncaught IndexError raised inside the
error handler itself; the distinct-failure-code return never reaches the
caller. -/
theorem C3_out_of_range_crash {α : Type} (dispatch : List Nat → Reader α)
    (readers : List (List Nat)) (s s1 : List Nat) (n : Nat)
    (h : read_leb128 s = some (n, s1)) (hn : 0 < n)
    (hlen : readers.length ≤ n - 1) :
    parse_object dispatch readers s = ParseObjectResult.indexErrorCrash := by
  rw [parse_object]
  simp only [h]
  rw [if_neg (by omega)]
  rw [List.get?_eq_none.mpr hlen]

theorem C3_witness :
    read_leb128 [2] = some (2, []) ∧ (0 : Nat) < 2 ∧
    ([] : List (List Nat)).length ≤ 2 - 1 ∧
    parse_object nullDispatch [] [2] = ParseObjectResult.indexErrorCrash :=
  ⟨by decide, by decide, by decide,
   C3_out_of_range_crash nullDispatch [] [2] [] 2 (by decide) (by decide)
     (by decide)⟩

/-- C4 counterexample: the claim says every length-prefixed string or blob
read that would need bytes past the end of the stream fails with a
truncation error.  The source uses fp.read, which returns the available
prefix: a string declared 5 bytes long with 1 byte left silently decodes to
that 1 byte, and an effect blob declared 5 bytes long with 1 byte left
silently yields 1 byte. -/
theorem C4_counterexample :
    read_string [5, 65] = some ([65], []) ∧
    read_effect [5, 0, 0, 0, 65] = some ([65], []) :=
  ⟨by decide, by decide⟩

/-- C4 amended: fixed-width numeric reads and LEB128 reads do fail when the
stream ends early (struct.error, and IndexError on an empty byte read), but
length-prefixed strings and byte blobs do not fail: fp.read silently
returns the available shorter payload. -/
theorem C4_truncation_behavior :
    (∀ s : List Nat, s.length < 1 → read_byte s = none) ∧
    (∀ s : List Nat, s.length < 2 → read_uint16 s = none) ∧
    (∀ s : List Nat, s.length < 4 → read_uint32 s = none) ∧
    (∀ s : List Nat, s.length < 4 → read_int32 s = none) ∧
    (∀ s : List Nat, s.length < 8 → read_int64 s = none) ∧
    (∀ s : List Nat, s.length < 4 → read_single s = none) ∧
    read_leb128 [] = none ∧
    (∀ len t, len < 128 → t.length < len →
        read_string (len :: t) = some (t, [])) ∧
    (∀ n t, n < 2 ^ 32 → t.length < n →
        read_effect (u32le n ++ t) = some (t, [])) := by
  refine ⟨?_, ?_, ?_, ?_, ?_, ?_, rfl, ?_, ?_⟩
  · intro s h
    match s with
    | [] => rfl
    | _ :: _ => simp at h
  · intro s h
    match s with
    | [] => rfl
    | [_] => rfl
    | _ :: _ :: _ => simp at h; omega
  · intro s h
    match s with
    | [] => rfl
    | [_] => rfl
    | [_, _] => rfl
    | [_, _, _] => rfl
    | _ :: _ :: _ :: _ :: _ => simp at h; omega
  · intro s h
    match s with
    | [] => rfl
    | [_] => rfl
    | [_, _] => rfl
    | [_, _, _] => rfl
    | _ :: _ :: _ :: _ :: _ => simp at h; omega
  · intro s h
    match s with
    | [] => rfl
    | [_] => rfl
    | [_, _] => rfl
    | [_, _, _] => rfl
    | [_, _, _, _] => rfl
    | [_, _, _, _, _] => rfl
    | [_, _, _, _, _, _] => rfl
    | [_, _, _, _, _, _, _] => rfl
    | _ :: _ :: _ :: _ :: _ :: _ :: _ :: _ :: _ => simp at h; omega
  · intro s h
    match s with
    | [] => rfl
    | [_] => rfl
    | [_, _] => rfl
    | [_, _, _] => rfl
    | _ :: _ :: _ :: _ :: _ => simp at h; omega
  · intro len t hlen ht
    have h127 : len &&& 127 = len := by
      have hmod := Nat.and_pow_two_sub_one_eq_mod len 7
      norm_num at hmod
      rw [hmod]
      omega
    have h128 : len &&& 128 = 0 := by
      have hpow := Nat.and_two_pow len 7
      rw [Nat.testBit_eq_false_of_lt (by omega : len < 2 ^ 7)] at hpow
      norm_num at hpow
      exact hpow
    simp [read_string, read_leb128, read_leb128_aux, h127, h128, fpRead,
      List.take_of_length_le (Nat.le_of_lt ht),
      List.drop_eq_nil_of_le (Nat.le_of_lt ht)]
  · intro n t hn ht
    have h32 : read_uint32 (u32le n ++ t) = some (n, t) := by
      simp [u32le, read_uint32]
      omega
    simp only [read_effect, h32, fpRead]
    simp [List.take_of_length_le (Nat.le_of_lt ht),
      List.drop_eq_nil_of_le (Nat.le_of_lt ht)]

theorem C4_witness :
    (3 : Nat) < 128 ∧ ([9] : List Nat).length < 3 ∧
    read_string [3, 9] = some ([9], []) ∧
    ([1, 2] : List Nat).length < 4 ∧ read_uint32 [1, 2] = none :=
  ⟨by decide, by decide,
   C4_truncation_behavior.2.2.2.2.2.2.2.1 3 [9] (by decide) (by decide),
   by decide, C4_truncation_behavior.2.2.1 [1, 2] (by decide)⟩

/-- C5: the claim says the HalfSingle, HalfVector2 and HalfVector4 branches
consume 2, 4 and 8 bytes and return IEEE-754 half-float channels.  The
source passes the file object itself, rather than bytes read from it, to
struct.unpack, which unconditionally raises TypeError before consuming
anything, for each of the three formats. -/
theorem C5_half_float_type_error :
    col_as_rgba "HalfSingle" [0, 60] = ColResult.typeError ∧
    col_as_rgba "HalfVector2" [0, 60, 0, 60] = ColResult.typeError ∧
    col_as_rgba "HalfVector4" [0, 60, 0, 60, 0, 60, 0, 60] =
      ColResult.typeError :=
  ⟨by decide, by decide, by decide⟩

/-- C6 counterexample: the claim says every decoded parent and child index
in the result is below the bone count.  The source performs no such
validation: on modelStreamA the bone count reads as 1 yet the single mesh
decodes with parent bone index 7. -/
theorem C6_counterexample :
    ((read_model nullDispatch modelStreamA).map
        fun p => (p.1.meshes.map fun mesh => mesh.parent_bone, p.1.root_bone)) =
      some ([7], 0) ∧
    read_uint32 modelStreamA = some (1, List.drop 4 modelStreamA) ∧
    ¬ (7 < 1) :=
  ⟨by decide, by decide, by decide⟩

/-- C6 amended: the index width is selected by the bone count exactly as
claimed (a bone count of 10 makes the reference reader consume one byte and
return it; a bone count of 300 makes it consume four bytes little-endian),
and consequently on a well-formed stream with bone count below 255 every
reference in the result is below 256; but decoded indices are not validated
against the bone count (see the counterexample), and the per-bone parent
and child reference lists are decoded and then dropped from the result. -/
theorem C6_index_width :
    (∀ b rest, modelRefReader 10 (b :: rest) = some (b, rest)) ∧
    (∀ b0 b1 b2 b3 rest,
        modelRefReader 300 (b0 :: b1 :: b2 :: b3 :: rest) =
          some (b0 + 256 * b1 + 65536 * b2 + 16777216 * b3, rest)) ∧
    (∀ (α : Type) (dispatch : List Nat → Reader α) (s : List Nat)
        (m : Model α) (r : List Nat) (bc : Nat) (s1 : List Nat),
        Bytes s → DispatchPres dispatch →
        read_uint32 s = some (bc, s1) → bc < 255 →
        read_model dispatch s = some (m, r) →
        m.root_bone < 256 ∧ ∀ mesh ∈ m.meshes, mesh.parent_bone < 256) := by
  refine ⟨?_, ?_, ?_⟩
  · intro b rest
    show (if (10 : Nat) < 255 then read_byte else read_uint32) (b :: rest) =
      some (b, rest)
    norm_num [read_byte]
  · intro b0 b1 b2 b3 rest
    show (if (300 : Nat) < 255 then read_byte else read_uint32)
        (b0 :: b1 :: b2 :: b3 :: rest) =
      some (b0 + 256 * b1 + 65536 * b2 + 16777216 * b3, rest)
    norm_num [read_uint32]
  · intro α dispatch s m r bc s1 hB hd hbc hlt h
    exact read_model_small_indices hd hB hbc hlt h

theorem C6_witness :
    Bytes modelStreamA ∧ (1 : Nat) < 255 ∧
    read_uint32 modelStreamA = some (1, List.drop 4 modelStreamA) ∧
    read_model nullDispatch modelStreamA = some (modelA, []) ∧
    modelA.root_bone < 256 ∧
    (∀ mesh ∈ modelA.meshes, mesh.parent_bone < 256) := by
  refine ⟨by decide, by decide, by decide, by decide, ?_, ?_⟩
  all_goals
    have hres := C6_index_width.2.2 (Option Unit) nullDispatch modelStreamA
      modelA [] 1 (List.drop 4 modelStreamA) (by decide)
      (fun name t v u hBt hdt => by cases hdt; exact hBt)
      (by decide) (by decide) (by decide)
  · exact hres.1
  · exact hres.2

/-- C7: Bgra5551 packed 0x8000 (bytes 0x00 0x80 little-endian) unpacks to
the RGBA value (0, 0, 0, 255), and Bgra4444 packed 0xF000 (bytes 0x00 0xF0)
unpacks to alpha exactly 240, not 255, each consuming its two bytes. -/
theorem C7_packed_pixels :
    col_as_rgba "Bgra5551" [0x00, 0x80] = ColResult.ok [0, 0, 0, 255] [] ∧
    col_as_rgba "Bgra4444" [0x00, 0xF0] = ColResult.ok [0, 0, 0, 240] [] ∧
    (240 : Nat) ≠ 255 :=
  ⟨by decide, by decide, by decide⟩

/-- C8: the claim says decoding the canonical LEB128 encoding of V yields
V.  The source never increments the group counter i, so every payload group
is merged at shift 0: the canonical encoding of 128 (bytes 0x80 0x01)
decodes to 1, not 128 (the whole encoding is consumed). -/
theorem C8_leb128_code_bug :
    leb128_encode 128 = [128, 1] ∧
    read_leb128 [128, 1] = some (1, []) ∧
    (1 : Nat) ≠ 128 := by
  refine ⟨?_, by decide, by decide⟩
  rw [leb128_encode]
  norm_num
  rw [leb128_encode]
  norm_num

/-- C9: a SoundEffect with an 18-byte format chunk and an n-byte PCM
payload synthesizes the fixed RIFF/WAVE layout: RIFF, the 4-byte
little-endian size n + 36, WAVEfmt with the 16-byte subchunk (the trimmed
format chunk), data, the 4-byte little-endian size n, then the payload; the
artifact totals 44 + n bytes.  The trailing 12 bytes cover the three int32
loop and duration fields the source reads after writing the artifact. -/
theorem C9_riff_layout (fs n : Nat) (chunk payload tail : List Nat)
    (hfs : fs < 2 ^ 32) (hchunk : chunk.length = 18)
    (hpay : payload.length = n) (hsz : n + 36 < 2 ^ 32)
    (htail : 12 ≤ tail.length) :
    ((read_sound_effect
        (u32le fs ++ (chunk ++ (u32le n ++ (payload ++ tail))))).map
        fun p => p.1.1) =
      some ([82, 73, 70, 70] ++ u32le (n + 36) ++
        [87, 65, 86, 69, 102, 109, 116, 32, 16, 0, 0, 0] ++
        chunk.take 16 ++ [100, 97, 116, 97] ++ u32le n ++ payload) ∧
    ([82, 73, 70, 70] ++ u32le (n + 36) ++
        [87, 65, 86, 69, 102, 109, 116, 32, 16, 0, 0, 0] ++
        chunk.take 16 ++ [100, 97, 116, 97] ++ u32le n ++ payload).length =
      44 + n := by
  have h1 : read_uint32 (u32le fs ++ (chunk ++ (u32le n ++ (payload ++ tail)))) =
      some (fs, chunk ++ (u32le n ++ (payload ++ tail))) := by
    simp [u32le, read_uint32]
    omega
  have htake18 : (chunk ++ (u32le n ++ (payload ++ tail))).take 18 = chunk :=
    List.take_left' hchunk
  have hdrop18 : (chunk ++ (u32le n ++ (payload ++ tail))).drop 18 =
      u32le n ++ (payload ++ tail) :=
    List.drop_left' hchunk
  have h2 : read_uint32 (u32le n ++ (payload ++ tail)) =
      some (n, payload ++ tail) := by
    simp [u32le, read_uint32]
    omega
  have htakeP : (payload ++ tail).take n = payload := List.take_left' hpay
  have hdropP : (payload ++ tail).drop n = tail := List.drop_left' hpay
  obtain ⟨v0, h5⟩ := read_int32_succeeds tail (by omega)
  obtain ⟨v1, h6⟩ := read_int32_succeeds (tail.drop 4) (by simp; omega)
  obtain ⟨v2, h7⟩ := read_int32_succeeds ((tail.drop 4).drop 4)
    (by simp; omega)
  rw [read_sound_effect]
  simp only [h1, fpRead, htake18, hdrop18, h2, htakeP, hdropP]
  simp only [toBytes4le, if_pos hsz, if_pos (by omega : n < 2 ^ 32)]
  simp only [h5, h6, h7]
  constructor
  · simp [hchunk]
  · simp [List.length_take, hchunk, hpay, u32le]
    omega

/-- Concrete 18-byte format chunk for the C9 witness. -/
def wavChunkB : List Nat := List.replicate 18 3

theorem C9_witness :
    (18 : Nat) < 2 ^ 32 ∧ wavChunkB.length = 18 ∧
    ([1, 2] : List Nat).length = 2 ∧ (2 : Nat) + 36 < 2 ^ 32 ∧
    12 ≤ (List.replicate 12 0 : List Nat).length ∧
    ((read_sound_effect
        (u32le 18 ++ (wavChunkB ++ (u32le 2 ++
          ([1, 2] ++ List.replicate 12 0))))).map fun p => p.1.1) =
      some ([82, 73, 70, 70] ++ u32le (2 + 36) ++
        [87, 65, 86, 69, 102, 109, 116, 32, 16, 0, 0, 0] ++
        wavChunkB.take 16 ++ [100, 97, 116, 97] ++ u32le 2 ++ [1, 2]) ∧
    ([82, 73, 70, 70] ++ u32le (2 + 36) ++
        [87, 65, 86, 69, 102, 109, 116, 32, 16, 0, 0, 0] ++
        wavChunkB.take 16 ++ [100, 97, 116, 97] ++ u32le 2 ++ [1, 2]).length =
      44 + 2 := by
  have h := C9_riff_layout 18 2 wavChunkB [1, 2] (List.replicate 12 0)
    (by decide) (by decide) (by decide) (by decide) (by decide)
  exact ⟨by decide, by decide, by decide, by decide, by decide, h.1, h.2⟩

/-- C10: on an 8-byte input whose 64-bit value has the sign bit set, the
datetime decoder returns a negative kind (the Python arithmetic right shift
of the negative signed value by 62) and a negative tick count (the bitwise
and keeps the infinitely many high sign bits set), instead of a 2-bit kind
and an unsigned 62-bit tick count. -/
theorem C10_datetime_negative (b0 b1 b2 b3 b4 b5 b6 b7 : Nat)
    (rest : List Nat) (h0 : b0 < 256) (h1 : b1 < 256) (h2 : b2 < 256)
    (h3 : b3 < 256) (h4 : b4 < 256) (h5 : b5 < 256) (h6 : b6 < 256)
    (h7 : b7 < 256) (hs : 128 ≤ b7) :
    ∃ kind ticks : Int,
      read_datetime (b0 :: b1 :: b2 :: b3 :: b4 :: b5 :: b6 :: b7 :: rest) =
        some ((kind, ticks), rest) ∧ kind < 0 ∧ ticks < 0 := by
  have hcond : ¬ (b0 + 256 * b1 + 65536 * b2 + 16777216 * b3 +
      4294967296 * b4 + 1099511627776 * b5 + 281474976710656 * b6 +
      72057594037927936 * b7 < 2 ^ 63) := by omega
  have h64 : read_int64
      (b0 :: b1 :: b2 :: b3 :: b4 :: b5 :: b6 :: b7 :: rest) =
      some (((b0 + 256 * b1 + 65536 * b2 + 16777216 * b3 +
        4294967296 * b4 + 1099511627776 * b5 + 281474976710656 * b6 +
        72057594037927936 * b7 : Nat) : Int) - 2 ^ 64, rest) := by
    simp only [read_int64]
    rw [if_neg hcond]
  have hneg : ((b0 + 256 * b1 + 65536 * b2 + 16777216 * b3 +
      4294967296 * b4 + 1099511627776 * b5 + 281474976710656 * b6 +
      72057594037927936 * b7 : Nat) : Int) - 2 ^ 64 < 0 := by
    have hub : b0 + 256 * b1 + 65536 * b2 + 16777216 * b3 +
        4294967296 * b4 + 1099511627776 * b5 + 281474976710656 * b6 +
        72057594037927936 * b7 < 2 ^ 64 := by omega
    omega
  refine ⟨Int.fdiv (((b0 + 256 * b1 + 65536 * b2 + 16777216 * b3 +
      4294967296 * b4 + 1099511627776 * b5 + 281474976710656 * b6 +
      72057594037927936 * b7 : Nat) : Int) - 2 ^ 64) (2 ^ 62),
    Int.land (((b0 + 256 * b1 + 65536 * b2 + 16777216 * b3 +
      4294967296 * b4 + 1099511627776 * b5 + 281474976710656 * b6 +
      72057594037927936 * b7 : Nat) : Int) - 2 ^ 64) (Int.lnot (3 * 2 ^ 62)),
    ?_, ?_, ?_⟩
  · simp only [read_datetime, h64]
  · rw [Int.fdiv_eq_ediv _ (by norm_num)]
    exact Int.ediv_neg' hneg (by norm_num)
  · obtain ⟨m, hm⟩ := Int.eq_negSucc_of_lt_zero hneg
    rw [hm]
    have hmask : Int.lnot ((3 : Int) * 2 ^ 62) =
        Int.negSucc 13835058055282163712 := by decide
    rw [hmask]
    exact Int.negSucc_lt_zero _

theorem C10_witness :
    (0 : Nat) < 256 ∧ (128 : Nat) < 256 ∧ (128 : Nat) ≤ 128 ∧
    ∃ kind ticks : Int,
      read_datetime [0, 0, 0, 0, 0, 0, 0, 128] = some ((kind, ticks), []) ∧
      kind < 0 ∧ ticks < 0 :=
  ⟨by decide, by decide, by decide,
   C10_datetime_negative 0 0 0 0 0 0 0 128 [] (by decide) (by decide)
     (by decide) (by decide) (by decide) (by decide) (by decide) (by decide)
     (by decide)⟩

end XNB
